import Mathlib

/-!
# Contract Catalyst — verification of the calculation-and-formatting core

Shallow embedding of `src/components/contract-calculator.tsx`:

* the zod `formSchema` (Validator),
* the `onSubmit` handler's arithmetic (Calculator),
* the `resultInWords` helper (Wordifier), and
* the `Intl.NumberFormat('en-US', { style: 'decimal', minimumFractionDigits: 3,
  maximumFractionDigits: 3 })` display formatting.

Numbers are embedded as exact rationals (`ℚ`); the source's IEEE-754 doubles
are not modelled, so every arithmetic statement below is about the exact
value of the source's expression tree.  Rounding to three decimals (the
`num.toFixed(3)` call and the `Intl` formatter, both platform built-ins) is
modelled as round-half-away-from-zero on the magnitude, the behaviour the
ECMAScript specification prescribes for `toFixed` on exactly representable
values; the repository's spec explicitly allows picking and documenting one
of the two half-rounding modes.

Strings are manipulated as `List Char` (`String.data`); `splitSpace`,
`joinSpace` and `capWord` mirror `words.split(' ')`, `.join(' ')` and
`word.charAt(0).toUpperCase() + word.slice(1)` from the source.
-/

namespace ContractCatalyst

/-! ## English number words

The source renders numbers with `toWords` from the npm package
`number-to-words`, which is not part of this repository's sources.
Modelled from the spec: "Render the integer part as English cardinal words
(standard long-form number-to-words: \"one thousand two hundred thirty-four\"
style); render the fractional part digit-by-digit as individual word-digits".
Scale names cover the standard short-scale names up to quadrillion; larger
numbers recurse on the quadrillion chunk so the function is total, as the
spec's Wordifier contract requires ("total over all finite non-negative
inputs"). -/

/-- Cardinal words for 0–19 (the `LESS_THAN_TWENTY` table of a standard
number-to-words rendering). Out-of-range arguments are never reached. -/
def smallW : ℕ → List Char
  | 0 => "zero".data
  | 1 => "one".data
  | 2 => "two".data
  | 3 => "three".data
  | 4 => "four".data
  | 5 => "five".data
  | 6 => "six".data
  | 7 => "seven".data
  | 8 => "eight".data
  | 9 => "nine".data
  | 10 => "ten".data
  | 11 => "eleven".data
  | 12 => "twelve".data
  | 13 => "thirteen".data
  | 14 => "fourteen".data
  | 15 => "fifteen".data
  | 16 => "sixteen".data
  | 17 => "seventeen".data
  | 18 => "eighteen".data
  | 19 => "nineteen".data
  | _ => []

/-- Tens words (the `TENTHS_LESS_THAN_HUNDRED` table). -/
def tensW : ℕ → List Char
  | 2 => "twenty".data
  | 3 => "thirty".data
  | 4 => "forty".data
  | 5 => "fifty".data
  | 6 => "sixty".data
  | 7 => "seventy".data
  | 8 => "eighty".data
  | 9 => "ninety".data
  | _ => []

/-- Cardinal words for numbers below 100: tens word, hyphenated with the
units word when the units digit is nonzero ("thirty-four"). -/
def below100 (n : ℕ) : List Char :=
  if n < 20 then smallW n
  else tensW (n / 10) ++ (if n % 10 = 0 then [] else '-' :: smallW (n % 10))

/-- Cardinal words for numbers below 1000: hundreds digit, the word
"hundred", then the remainder. -/
def below1000 (n : ℕ) : List Char :=
  if n < 100 then below100 n
  else
    smallW (n / 100) ++ ' ' :: "hundred".data ++
      (if n % 100 = 0 then [] else ' ' :: below100 (n % 100))

/-- Fuel-driven recursion for the full cardinal rendering; the fuel is
structural so that concrete values reduce in the kernel.  Called with
`fuel > n` (see `toWordsL`). -/
def toWordsFuel : ℕ → ℕ → List Char
  | 0, _ => []
  | fuel + 1, n =>
    if n < 1000 then below1000 n
    else if n < 1000000 then
      toWordsFuel fuel (n / 1000) ++ ' ' :: "thousand".data ++
        (if n % 1000 = 0 then [] else ' ' :: toWordsFuel fuel (n % 1000))
    else if n < 1000000000 then
      toWordsFuel fuel (n / 1000000) ++ ' ' :: "million".data ++
        (if n % 1000000 = 0 then [] else ' ' :: toWordsFuel fuel (n % 1000000))
    else if n < 1000000000000 then
      toWordsFuel fuel (n / 1000000000) ++ ' ' :: "billion".data ++
        (if n % 1000000000 = 0 then [] else ' ' :: toWordsFuel fuel (n % 1000000000))
    else if n < 1000000000000000 then
      toWordsFuel fuel (n / 1000000000000) ++ ' ' :: "trillion".data ++
        (if n % 1000000000000 = 0 then [] else ' ' :: toWordsFuel fuel (n % 1000000000000))
    else
      toWordsFuel fuel (n / 1000000000000000) ++ ' ' :: "quadrillion".data ++
        (if n % 1000000000000000 = 0 then [] else ' ' :: toWordsFuel fuel (n % 1000000000000000))

/-- English cardinal words of a natural number (model of the npm
`toWords` on non-negative integers, per the spec's description). -/
def toWordsL (n : ℕ) : List Char :=
  toWordsFuel (n + 1) n

/-- The word "minus". -/
def minusW : List Char := "minus".data

/-- The connective "point". -/
def pointW : List Char := "point".data

/-- `toWords` on an integer: a negative argument is rendered with a leading
"minus" (the library behaviour the spec alludes to with "silently render a
sign"). -/
def toWordsZ (z : ℤ) : List Char :=
  if z < 0 then minusW ++ ' ' :: toWordsL z.natAbs
  else toWordsL z.toNat

/-! ## Splitting on spaces and capitalisation, as `String.split(' ')` /
`join(' ')` / `charAt(0).toUpperCase() + slice(1)` do -/

/-- One step of splitting a character list on `' '` (JavaScript
`str.split(' ')` semantics: every single space separates, empty pieces are
kept). -/
def splitSpaceAux (c : Char) : List (List Char) → List (List Char)
  | [] => if c = ' ' then [[]] else [[c]]
  | t :: ts => if c = ' ' then [] :: t :: ts else (c :: t) :: ts

/-- `l.split(' ')` on character lists. -/
def splitSpace (l : List Char) : List (List Char) :=
  l.foldr splitSpaceAux [[]]

/-- `tokens.join(' ')` on character lists. -/
def joinSpace : List (List Char) → List Char
  | [] => []
  | [t] => t
  | t :: ts => t ++ ' ' :: joinSpace ts

/-- `word.charAt(0).toUpperCase() + word.slice(1)`. -/
def capWord : List Char → List Char
  | [] => []
  | c :: cs => c.toUpper :: cs

/-- `words.split(' ').map(cap).join(' ')` — the final line of
`resultInWords`. -/
def capAll (l : List Char) : List Char :=
  joinSpace ((splitSpace l).map capWord)

/-- No space character occurs in the token. -/
def noSpace : List Char → Bool
  | [] => true
  | c :: cs => if c = ' ' then false else noSpace cs

/-- The first characters of every word the rendering can emit (zero … nine,
ten … nineteen, twenty … ninety, hundred, thousand, million, billion,
trillion, quadrillion, minus, point). -/
def lowHeads : List Char :=
  ['z', 'o', 't', 'f', 's', 'e', 'n', 'h', 'm', 'b', 'q', 'p']

/-- A well-formed word token: nonempty, beginning with one of the known
lowercase word heads, and containing no space. -/
def tokOK : List Char → Bool
  | [] => false
  | c :: cs => decide (c ∈ lowHeads) && noSpace (c :: cs)

/-! ## The fixed-point rendering `num.toFixed(3)` -/

/-- The value of `|q|` scaled by 1000 and rounded half-away-from-zero:
the three-decimal rendering of `q` is `±(fixedScaled q / 1000).(fixedScaled
q % 1000)`. -/
def fixedScaled (q : ℚ) : ℕ :=
  (⌊|q| * 1000 + 1 / 2⌋).toNat

/-- The integer part of `num.toFixed(3)`, as a magnitude. -/
def fixedIntPart (q : ℚ) : ℕ :=
  fixedScaled q / 1000

/-- The body of `resultInWords` after the three-decimal rendering: `neg`
records whether `fixedNum` begins with a sign, `m` is the scaled magnitude.
The string round-trip of the source (`split('.')`, `Number(integerPart)`,
`fractionalPart.split('')`) is modelled arithmetically: `Number` of the
integer-part string is `-(m / 1000)` when the sign is present (so
`Number("-0") = -0`, which the words rendering treats as zero) and the three
fractional characters are the decimal digits of `m % 1000`. -/
def wordsOfFixed (neg : Bool) (m : ℕ) : String :=
  let ipZ : ℤ := if neg then -(m / 1000 : ℕ) else (m / 1000 : ℕ)
  let integerWords := toWordsZ ipZ
  let fractionalWords :=
    toWordsL (m / 100 % 10) ++ ' ' :: toWordsL (m / 10 % 10) ++ ' ' :: toWordsL (m % 10)
  let words := integerWords ++ ' ' :: pointW ++ ' ' :: fractionalWords
  String.mk (capAll words)

/-- The `resultInWords` helper from the source, over an exact-rational
result.  `none` models the `null` result state (`if (num === null) return
''`). -/
def resultInWords (num : Option ℚ) : String :=
  match num with
  | none => ""
  | some q => wordsOfFixed (decide (q < 0)) (fixedScaled q)

/-! ## The Calculator (`onSubmit`, lines 56–71 of the source) -/

/-- The parsed form data (`FormValues` in the source).  Values are exact
rationals; validated year fields are integral rationals. -/
structure FormValues where
  contractValue : ℚ
  issueYear : ℚ
  renewalYear : ℚ
deriving DecidableEq

/-- The field an error is attached to. -/
inductive Field
  | contractValue
  | issueYear
  | renewalYear
deriving DecidableEq

/-- The `onSubmit` handler: the guard `yearsDifference <= 0` sets a manual
error on the `renewalYear` field and produces no result (the spec's
`InvalidDuration` defensive failure); otherwise the result state receives
the computed value. -/
def onSubmit (data : FormValues) : Except (Field × String) ℚ :=
  let yearsDifference := data.renewalYear - data.issueYear
  if yearsDifference ≤ 0 then
    .error (.renewalYear, "Renewal year must be greater than issue year.")
  else
    let value1 := data.contractValue / (yearsDifference * 12)
    let value2 := value1 * 10.33
    let finalAnswer := (value2 / 100) + value1
    .ok finalAnswer

/-- The four-step business formula exactly as the spec states it
(`months`, `v1`, `v2`, `result`), for comparison with `onSubmit`. -/
def calculateSpec (contractValue issueYear renewalYear : ℚ) : ℚ :=
  let months := (renewalYear - issueYear) * 12
  let v1 := contractValue / months
  let v2 := v1 * 10.33
  (v2 / 100) + v1

/-! ## The decimal display
`Intl.NumberFormat('en-US', { style: 'decimal', minimumFractionDigits: 3,
maximumFractionDigits: 3 })` (line 174 of the source): fixed three
fractional digits, comma thousands separators, default half-away-from-zero
rounding. -/

/-- The decimal digit character of `d` (for `d < 10`). -/
def digitChar (d : ℕ) : Char :=
  Char.ofNat (48 + d)

/-- Decimal digits of a positive natural, most significant first; fuel-driven
so concrete values reduce in the kernel (called with `fuel ≥ n`). -/
def natDigitsAux : ℕ → ℕ → List Char
  | 0, _ => []
  | _ + 1, 0 => []
  | fuel + 1, n + 1 => natDigitsAux fuel ((n + 1) / 10) ++ [digitChar ((n + 1) % 10)]

/-- Decimal digit characters of a natural number. -/
def natDigitsL (n : ℕ) : List Char :=
  if n = 0 then ['0'] else natDigitsAux n n

/-- Insert a comma after every block of three digits, working on the
reversed digit list; `k` counts digits placed since the last comma. -/
def groupRevAux : List Char → ℕ → List Char
  | [], _ => []
  | c :: rest, k =>
    if k = 3 then ',' :: c :: groupRevAux rest 1
    else c :: groupRevAux rest (k + 1)

/-- `en-US` thousands grouping of a digit string. -/
def groupDigits (l : List Char) : List Char :=
  (groupRevAux l.reverse 0).reverse

/-- The displayed decimal string: grouped integer digits, a decimal point,
and exactly three fractional digits. -/
def formatDecimal3 (q : ℚ) : String :=
  String.mk
    ((if q < 0 then ['-'] else []) ++ groupDigits (natDigitsL (fixedIntPart q)) ++
      '.' :: [digitChar (fixedScaled q / 100 % 10), digitChar (fixedScaled q / 10 % 10),
        digitChar (fixedScaled q % 10)])

/-! ## The Validator (`formSchema`, lines 30–39 of the source)

The zod schema coerces each field to a number, checks the per-field
constraints (collecting every violated check of the base object schema),
and only when the base object parses cleanly runs the `.refine` cross-field
check `renewalYear > issueYear`.  A raw field is `none` when it was absent
or its coercion produced `NaN`. -/

/-- Raw (coerced) form input: `none` models a missing or non-numeric
field. -/
structure RawInput where
  contractValue : Option ℚ
  issueYear : Option ℚ
  renewalYear : Option ℚ
deriving DecidableEq

/-- Error messages, verbatim from the source schema (the integer-check
message is zod's default). -/
def msgCVRequired : String := "Contract value is required."
def msgCVPositive : String := "Contract value must be a positive number."
def msgIYRequired : String := "Issue year is required."
def msgRYRequired : String := "Renewal year is required."
def msgYearMin : String := "Year must be 1900 or later."
def msgYearMax : String := "Year cannot be in the future."
def msgExpectedInt : String := "Expected integer, received float"
def msgRenewalAfter : String := "Renewal year must be after the issue year."
def msgRenewalGreater : String := "Renewal year must be greater than issue year."

/-- Issues of the `contractValue` field
(`z.coerce.number().positive(...)`). -/
def contractValueIssues (r : RawInput) : List (Field × String) :=
  match r.contractValue with
  | none => [(.contractValue, msgCVRequired)]
  | some v => if 0 < v then [] else [(.contractValue, msgCVPositive)]

/-- Issues of the `issueYear` field
(`z.coerce.number().int().min(1900, ...).max(currentYear, ...)`); zod runs
every check of the chain and collects all failures. -/
def issueYearIssues (currentYear : ℤ) (r : RawInput) : List (Field × String) :=
  match r.issueYear with
  | none => [(.issueYear, msgIYRequired)]
  | some v =>
    (if v.den = 1 then [] else [(.issueYear, msgExpectedInt)]) ++
      (if 1900 ≤ v then [] else [(.issueYear, msgYearMin)]) ++
        (if v ≤ (currentYear : ℚ) then [] else [(.issueYear, msgYearMax)])

/-- Issues of the `renewalYear` field
(`z.coerce.number().int().min(1900, ...)` — no upper bound). -/
def renewalYearIssues (r : RawInput) : List (Field × String) :=
  match r.renewalYear with
  | none => [(.renewalYear, msgRYRequired)]
  | some v =>
    (if v.den = 1 then [] else [(.renewalYear, msgExpectedInt)]) ++
      (if 1900 ≤ v then [] else [(.renewalYear, msgYearMin)])

/-- All issues of the base object schema, per field, in one pass. -/
def fieldIssues (currentYear : ℤ) (r : RawInput) : List (Field × String) :=
  contractValueIssues r ++ issueYearIssues currentYear r ++ renewalYearIssues r

/-- `formSchema.safeParse`: the base object schema collects all per-field
issues; the `.refine(data => data.renewalYear > data.issueYear, ...)`
effect runs only when the base object parsed without issues, and attaches
its message to the `renewalYear` path. -/
def validate (currentYear : ℤ) (r : RawInput) :
    Except (List (Field × String)) FormValues :=
  if fieldIssues currentYear r = [] then
    match r.contractValue, r.issueYear, r.renewalYear with
    | some cv, some iy, some ry =>
      if ry > iy then .ok ⟨cv, iy, ry⟩
      else .error [(.renewalYear, msgRenewalAfter)]
    | _, _, _ => .error (fieldIssues currentYear r)
  else .error (fieldIssues currentYear r)

/-! ## The clock
`const currentYear = new Date().getFullYear();` (line 30) runs once, at
module-initialisation time, and every validation reuses that captured
constant.  `clock` maps an instant to the calendar year read at that
instant. -/

/-- The year the module captures at load time `t0`. -/
def moduleLoadYear (clock : ℕ → ℤ) (t0 : ℕ) : ℤ :=
  clock t0

/-- Validation as the code performs it at call instant `tCall`: the
`currentYear` bound is the module-load constant; the call instant is never
consulted. -/
def validateCode (clock : ℕ → ℤ) (t0 _tCall : ℕ) (r : RawInput) :
    Except (List (Field × String)) FormValues :=
  validate (moduleLoadYear clock t0) r

/-- Modelled from the spec: "`currentYear` is read once per validation call
from the invocation-time calendar clock" — validation whose upper bound is
the year at the call instant.  Stated only to be compared with
`validateCode`. -/
def validatePerCall (clock : ℕ → ℤ) (_t0 tCall : ℕ) (r : RawInput) :
    Except (List (Field × String)) FormValues :=
  validate (clock tCall) r

/-! ## Helper lemmas -/

/-- Evaluation rule for `fixedScaled` at a known value. -/
theorem fixedScaled_eq (q : ℚ) (m : ℕ) (h1 : (m : ℚ) ≤ |q| * 1000 + 1 / 2)
    (h2 : |q| * 1000 + 1 / 2 < (m : ℚ) + 1) : fixedScaled q = m := by
  unfold fixedScaled
  rw [show (⌊|q| * 1000 + 1 / 2⌋ : ℤ) = (m : ℤ) from
    Int.floor_eq_iff.mpr ⟨by push_cast; exact h1, by push_cast; exact h2⟩]
  exact Int.toNat_natCast m

/-- Splitting never yields the empty token list. -/
theorem splitSpace_ne_nil (l : List Char) : splitSpace l ≠ [] := by
  induction l with
  | nil => simp [splitSpace]
  | cons c cs ih =>
    show splitSpaceAux c (splitSpace cs) ≠ []
    cases h : splitSpace cs with
    | nil => by_cases hc : c = ' ' <;> simp [splitSpaceAux, hc]
    | cons t ts => by_cases hc : c = ' ' <;> simp [splitSpaceAux, hc]

/-- Folding the splitter into an accumulator that starts a fresh token is
the same as splitting alone and appending the accumulated tokens. -/
theorem foldr_splitSpaceAux_extend (a : List Char) (ts : List (List Char)) :
    a.foldr splitSpaceAux ([] :: ts) = a.foldr splitSpaceAux [[]] ++ ts := by
  induction a with
  | nil => rfl
  | cons c cs ih =>
    simp only [List.foldr_cons, ih]
    cases h : cs.foldr splitSpaceAux [[]] with
    | nil => exact absurd h (splitSpace_ne_nil cs)
    | cons t ts2 => by_cases hc : c = ' ' <;> simp [splitSpaceAux, hc]

/-- Splitting distributes over a space that joins two pieces. -/
theorem splitSpace_append (a b : List Char) :
    splitSpace (a ++ ' ' :: b) = splitSpace a ++ splitSpace b := by
  unfold splitSpace
  rw [List.foldr_append]
  show a.foldr splitSpaceAux (splitSpaceAux ' ' (b.foldr splitSpaceAux [[]])) = _
  rw [show splitSpaceAux ' ' (b.foldr splitSpaceAux [[]]) =
      [] :: b.foldr splitSpaceAux [[]] from by
    cases h : b.foldr splitSpaceAux [[]] with
    | nil => exact absurd h (splitSpace_ne_nil b)
    | cons t ts => simp [splitSpaceAux]]
  exact foldr_splitSpaceAux_extend a _

/-- A space-free piece splits into itself as the only token. -/
theorem splitSpace_no_space (l : List Char) (h : noSpace l = true) :
    splitSpace l = [l] := by
  induction l with
  | nil => rfl
  | cons c cs ih =>
    unfold noSpace at h
    by_cases hc : c = ' '
    · rw [if_pos hc] at h; cases h
    · rw [if_neg hc] at h
      show splitSpaceAux c (splitSpace cs) = [c :: cs]
      rw [ih h]
      simp [splitSpaceAux, hc]

/-- Joining a token onto a nonempty tail inserts one space. -/
theorem joinSpace_cons (t : List Char) (ts : List (List Char)) (h : ts ≠ []) :
    joinSpace (t :: ts) = t ++ ' ' :: joinSpace ts := by
  cases ts with
  | nil => exact absurd rfl h
  | cons u us => rfl

/-- Splitting inverts joining on nonempty lists of space-free tokens. -/
theorem splitSpace_joinSpace (ts : List (List Char)) (h1 : ts ≠ [])
    (h2 : ∀ t ∈ ts, noSpace t = true) : splitSpace (joinSpace ts) = ts := by
  induction ts with
  | nil => exact absurd rfl h1
  | cons t ts ih =>
    cases ts with
    | nil => exact splitSpace_no_space t (h2 t (by simp))
    | cons u us =>
      rw [joinSpace_cons t (u :: us) (by simp), splitSpace_append,
        splitSpace_no_space t (h2 t (by simp)),
        ih (by simp) (fun x hx => h2 x (List.mem_cons_of_mem t hx))]
      rfl

set_option maxRecDepth 8000 in
/-- Token check for every number below 1000. -/
theorem below1000_all_tokOK :
    ∀ n, n < 1000 → ((splitSpace (below1000 n)).all tokOK) = true := by
  decide

/-- The token check distributes over a space-joined concatenation. -/
theorem splitSpace_all_append (a b : List Char) (p : List Char → Bool) :
    (splitSpace (a ++ ' ' :: b)).all p = ((splitSpace a).all p && (splitSpace b).all p) := by
  rw [splitSpace_append, List.all_append]

/-- Every token of any cardinal rendering is a well-formed word token. -/
theorem toWordsFuel_all_tokOK (fuel : ℕ) :
    ∀ n, n < fuel → ((splitSpace (toWordsFuel fuel n)).all tokOK) = true := by
  induction fuel with
  | zero => intro n h; omega
  | succ f ih =>
    intro n h
    simp only [toWordsFuel]
    by_cases h1 : n < 1000
    · rw [if_pos h1]
      exact below1000_all_tokOK n h1
    rw [if_neg h1]
    by_cases h2 : n < 1000000
    · rw [if_pos h2]
      by_cases h0 : n % 1000 = 0
      · rw [if_pos h0]
        simp only [List.append_nil]
        rw [splitSpace_all_append, ih (n / 1000) (by omega)]
        decide
      · rw [if_neg h0]
        rw [splitSpace_all_append, splitSpace_all_append,
          ih (n / 1000) (by omega), ih (n % 1000) (by omega)]
        decide
    rw [if_neg h2]
    by_cases h3 : n < 1000000000
    · rw [if_pos h3]
      by_cases h0 : n % 1000000 = 0
      · rw [if_pos h0]
        simp only [List.append_nil]
        rw [splitSpace_all_append, ih (n / 1000000) (by omega)]
        decide
      · rw [if_neg h0]
        rw [splitSpace_all_append, splitSpace_all_append,
          ih (n / 1000000) (by omega), ih (n % 1000000) (by omega)]
        decide
    rw [if_neg h3]
    by_cases h4 : n < 1000000000000
    · rw [if_pos h4]
      by_cases h0 : n % 1000000000 = 0
      · rw [if_pos h0]
        simp only [List.append_nil]
        rw [splitSpace_all_append, ih (n / 1000000000) (by omega)]
        decide
      · rw [if_neg h0]
        rw [splitSpace_all_append, splitSpace_all_append,
          ih (n / 1000000000) (by omega), ih (n % 1000000000) (by omega)]
        decide
    rw [if_neg h4]
    by_cases h5 : n < 1000000000000000
    · rw [if_pos h5]
      by_cases h0 : n % 1000000000000 = 0
      · rw [if_pos h0]
        simp only [List.append_nil]
        rw [splitSpace_all_append, ih (n / 1000000000000) (by omega)]
        decide
      · rw [if_neg h0]
        rw [splitSpace_all_append, splitSpace_all_append,
          ih (n / 1000000000000) (by omega), ih (n % 1000000000000) (by omega)]
        decide
    rw [if_neg h5]
    by_cases h0 : n % 1000000000000000 = 0
    · rw [if_pos h0]
      simp only [List.append_nil]
      rw [splitSpace_all_append, ih (n / 1000000000000000) (by omega)]
      decide
    · rw [if_neg h0]
      rw [splitSpace_all_append, splitSpace_all_append,
        ih (n / 1000000000000000) (by omega), ih (n % 1000000000000000) (by omega)]
      decide

/-- Token check for the full cardinal rendering. -/
theorem toWordsL_all_tokOK (n : ℕ) : ((splitSpace (toWordsL n)).all tokOK) = true :=
  toWordsFuel_all_tokOK (n + 1) n (by omega)

/-- Single-digit words contain no space. -/
theorem digit_noSpace : ∀ d, d < 10 → noSpace (toWordsL d) = true := by
  decide

/-- Single-digit words are well-formed tokens. -/
theorem digit_tokOK : ∀ d, d < 10 → tokOK (toWordsL d) = true := by
  decide

/-- Capitalising a well-formed token keeps it space-free and uppercases its
first character. -/
theorem capWord_ok (t : List Char) (h : tokOK t = true) :
    noSpace (capWord t) = true ∧ ∃ c cs, capWord t = c :: cs ∧ c.isUpper = true := by
  cases t with
  | nil => simp [tokOK] at h
  | cons c cs =>
    unfold tokOK at h
    rw [Bool.and_eq_true] at h
    obtain ⟨hc, hn⟩ := h
    have hc2 : c ∈ lowHeads := of_decide_eq_true hc
    have hns : noSpace cs = true := by
      unfold noSpace at hn
      by_cases hsp : c = ' '
      · rw [if_pos hsp] at hn; cases hn
      · rwa [if_neg hsp] at hn
    have hcup : c.toUpper ≠ ' ' ∧ c.toUpper.isUpper = true := by
      fin_cases hc2 <;> exact ⟨by decide, by decide⟩
    refine ⟨?_, c.toUpper, cs, rfl, hcup.2⟩
    show noSpace (c.toUpper :: cs) = true
    unfold noSpace
    rw [if_neg hcup.1]
    exact hns

/-- Capitalisation maps the token list elementwise: splitting the
capitalised string recovers the capitalised tokens. -/
theorem capAll_tokens (l : List Char) (h : (splitSpace l).all tokOK = true) :
    splitSpace (capAll l) = (splitSpace l).map capWord := by
  unfold capAll
  apply splitSpace_joinSpace
  · intro hmap
    exact splitSpace_ne_nil l (List.map_eq_nil_iff.mp hmap)
  · intro t ht
    obtain ⟨u, hu, rfl⟩ := List.mem_map.mp ht
    exact (capWord_ok u (List.all_eq_true.mp h u hu)).1

/-- `toWords` of a cast natural is the natural's rendering. -/
theorem toWordsZ_natCast (k : ℕ) : toWordsZ (k : ℤ) = toWordsL k := by
  unfold toWordsZ
  rw [if_neg (not_lt.mpr (Int.natCast_nonneg k)), Int.toNat_natCast]

/-- The character data produced by `wordsOfFixed` on a non-negative fixed
rendering. -/
theorem wordsOfFixed_false_data (m : ℕ) :
    (wordsOfFixed false m).data =
      capAll (toWordsL (m / 1000) ++ ' ' :: pointW ++ ' ' ::
        (toWordsL (m / 100 % 10) ++ ' ' :: toWordsL (m / 10 % 10) ++ ' ' ::
          toWordsL (m % 10))) := by
  show (String.mk (capAll (toWordsZ ((m / 1000 : ℕ) : ℤ) ++ ' ' :: pointW ++ ' ' ::
    (toWordsL (m / 100 % 10) ++ ' ' :: toWordsL (m / 10 % 10) ++ ' ' ::
      toWordsL (m % 10))))).data = _
  rw [toWordsZ_natCast]

/-- The character data produced by `wordsOfFixed` on a negative fixed
rendering with nonzero integer part. -/
theorem wordsOfFixed_true_data (m : ℕ) (h : 1 ≤ m / 1000) :
    (wordsOfFixed true m).data =
      capAll (minusW ++ ' ' :: (toWordsL (m / 1000) ++ ' ' :: pointW ++ ' ' ::
        (toWordsL (m / 100 % 10) ++ ' ' :: toWordsL (m / 10 % 10) ++ ' ' ::
          toWordsL (m % 10)))) := by
  have hlt : (-((m / 1000 : ℕ) : ℤ)) < 0 := by omega
  show (String.mk (capAll (toWordsZ (-((m / 1000 : ℕ) : ℤ)) ++ ' ' :: pointW ++ ' ' ::
    (toWordsL (m / 100 % 10) ++ ' ' :: toWordsL (m / 10 % 10) ++ ' ' ::
      toWordsL (m % 10))))).data = _
  rw [show toWordsZ (-((m / 1000 : ℕ) : ℤ)) = minusW ++ ' ' :: toWordsL (m / 1000) from by
    unfold toWordsZ
    rw [if_pos hlt, Int.natAbs_neg, Int.natAbs_ofNat]]
  show capAll ((minusW ++ ' ' :: toWordsL (m / 1000)) ++ ' ' :: pointW ++ ' ' ::
    (toWordsL (m / 100 % 10) ++ ' ' :: toWordsL (m / 10 % 10) ++ ' ' ::
      toWordsL (m % 10))) = _
  simp only [List.append_assoc, List.cons_append]

/-! ## Claims -/

/-- C10: invoked with the absent result (`null`), the Wordifier returns the
empty string. -/
theorem claim10_null_gives_empty : resultInWords none = "" := rfl

/-- C1: for every validated input (`contractValue > 0`,
`renewalYear > issueYear`), `onSubmit` returns exactly the value of the
spec's four-step formula (`months`, `v1`, `v2`, `result`), with the same
order and grouping of operations (the two sides are definitionally the same
expression tree). -/
theorem claim1_onSubmit_matches_formula (cv iy ry : ℚ) (_hcv : 0 < cv) (h : iy < ry) :
    onSubmit ⟨cv, iy, ry⟩ = .ok (calculateSpec cv iy ry) := by
  simp only [onSubmit, calculateSpec]
  rw [if_neg (not_le.mpr (sub_pos.mpr h))]

/-- C1 witness: the formula agreement evaluated at `contractValue = 1`,
`issueYear = 2020`, `renewalYear = 2021`. -/
theorem claim1_witness :
    (0 : ℚ) < 1 ∧ (2020 : ℚ) < 2021 ∧
      onSubmit ⟨1, 2020, 2021⟩ = .ok (calculateSpec 1 2020 2021) :=
  ⟨by norm_num, by norm_num,
    claim1_onSubmit_matches_formula 1 2020 2021 (by norm_num) (by norm_num)⟩

/-- C5: whenever `renewalYear - issueYear ≤ 0` (so `months ≤ 0`), the
Calculator produces no numeric result and fails: the guard sets the manual
error on the `renewalYear` field (the code's realisation of the spec's
`InvalidDuration` defensive failure). -/
theorem claim5_invalid_duration (d : FormValues)
    (h : d.renewalYear - d.issueYear ≤ 0) :
    onSubmit d = .error (Field.renewalYear, msgRenewalGreater) := by
  simp only [onSubmit]
  rw [if_pos h]
  rfl

/-- C5 witness: the duration guard fires at
`⟨contractValue 100, issueYear 2022, renewalYear 2021⟩`. -/
theorem claim5_witness :
    (2021 : ℚ) - 2022 ≤ 0 ∧
      onSubmit ⟨100, 2022, 2021⟩ = .error (Field.renewalYear, msgRenewalGreater) :=
  ⟨by norm_num, claim5_invalid_duration ⟨100, 2022, 2021⟩ (by norm_num)⟩

/-- C9: for every validated input the Calculator's output exists and is
non-negative (finiteness is intrinsic to the exact-rational embedding). -/
theorem claim9_result_nonneg (cv iy ry : ℚ) (hcv : 0 < cv) (h : iy < ry) :
    ∃ r, onSubmit ⟨cv, iy, ry⟩ = .ok r ∧ 0 ≤ r := by
  have h1 : 0 < ry - iy := sub_pos.mpr h
  have h2 : (0 : ℚ) < (ry - iy) * 12 := mul_pos h1 (by norm_num)
  have h3 : 0 < cv / ((ry - iy) * 12) := div_pos hcv h2
  have h4 : (0 : ℚ) < cv / ((ry - iy) * 12) * 10.33 / 100 :=
    div_pos (mul_pos h3 (by norm_num)) (by norm_num)
  refine ⟨cv / ((ry - iy) * 12) * 10.33 / 100 + cv / ((ry - iy) * 12), ?_, by linarith⟩
  simp only [onSubmit]
  rw [if_neg (not_le.mpr h1)]

/-- C9 witness: the non-negativity statement evaluated at
`contractValue = 1`, `issueYear = 2020`, `renewalYear = 2021`. -/
theorem claim9_witness :
    (0 : ℚ) < 1 ∧ (2020 : ℚ) < 2021 ∧
      ∃ r, onSubmit ⟨1, 2020, 2021⟩ = .ok r ∧ 0 ≤ r :=
  ⟨by norm_num, by norm_num, claim9_result_nonneg 1 2020 2021 (by norm_num) (by norm_num)⟩

/-- C2: the concrete scenario `contractValue = 12000`, `issueYear = 2021`,
`renewalYear = 2022`: the result is exactly `1103.3`, the decimal display is
`"1,103.300"` and the words display is
`"One Thousand One Hundred Three Point Three Zero Zero"`. -/
theorem claim2_concrete_scenario :
    onSubmit ⟨12000, 2021, 2022⟩ = .ok 1103.3
    ∧ formatDecimal3 1103.3 = "1,103.300"
    ∧ resultInWords (some 1103.3) =
        "One Thousand One Hundred Three Point Three Zero Zero" := by
  have habs : |(1103.3 : ℚ)| = 1103.3 := abs_of_pos (by norm_num)
  have hm : fixedScaled (1103.3 : ℚ) = 1103300 :=
    fixedScaled_eq _ _ (by rw [habs]; norm_num) (by rw [habs]; norm_num)
  have hip : fixedIntPart (1103.3 : ℚ) = 1103 := by unfold fixedIntPart; rw [hm]
  refine ⟨?_, ?_, ?_⟩
  · simp only [onSubmit]
    rw [if_neg (by norm_num)]
    norm_num
  · unfold formatDecimal3
    rw [hm, hip, if_neg (by norm_num : ¬(1103.3 : ℚ) < 0)]
    decide
  · simp only [resultInWords]
    rw [decide_eq_false (by norm_num : ¬(1103.3 : ℚ) < 0), hm]
    decide

/-- C4 counterexample: on the negative input `-5.5` the Wordifier does not
fail — it returns a string, and that string renders the sign (leading
`"Minus"`), contradicting the claim that it fails with a `NegativeValue`
error rather than rendering a sign.  (`resultInWords` has no failure path
at all in the source.) -/
theorem claim4_counterexample :
    resultInWords (some (-5.5 : ℚ)) = "Minus Five Point Five Zero Zero" := by
  have habs : |(-5.5 : ℚ)| = 5.5 := by rw [abs_of_neg (by norm_num)]; norm_num
  have hm : fixedScaled (-5.5 : ℚ) = 5500 :=
    fixedScaled_eq _ _ (by rw [habs]; norm_num) (by rw [habs]; norm_num)
  simp only [resultInWords]
  rw [decide_eq_true (by norm_num : (-5.5 : ℚ) < 0), hm]
  decide

/-- C6 counterexample: with `contractValue = -1` (violating its own
constraint) and `renewalYear = 2021 ≤ 2022 = issueYear`, validation reports
only the `contractValue` error: the `.refine` cross-field check never runs
when the base object has issues, so no `RenewalNotAfterIssue` error is
attached to `renewalYear` and the violated cross-field constraint is not
collected — refuting "regardless of the values of the other fields" and
"all violated constraints … reported together". -/
theorem claim6_counterexample :
    (2021 : ℚ) ≤ 2022 ∧
      validate 2025 ⟨some (-1), some 2022, some 2021⟩ =
        .error [(Field.contractValue, msgCVPositive)] := by
  constructor
  · norm_num
  · rfl

/-- C7 counterexample: with a clock that reads 2025 at the module-load
instant and 2026 at the validation-call instant, the code rejects
`issueYear = 2026` ("in the future") because it uses the year captured at
load time, while the claimed per-call reading would accept it: the upper
bound is not re-read at each validation call. -/
theorem claim7_counterexample :
    validateCode (fun t => if t = 0 then 2025 else 2026) 0 1
        ⟨some 100, some 2026, some 2027⟩ =
      .error [(Field.issueYear, msgYearMax)]
    ∧ validatePerCall (fun t => if t = 0 then 2025 else 2026) 0 1
        ⟨some 100, some 2026, some 2027⟩ =
      .ok ⟨100, 2026, 2027⟩ := by
  exact ⟨rfl, rfl⟩

/-- Integral rationals shifted by a natural numeral still have denominator
one. -/
theorem den_intCast_add (z : ℤ) (k : ℕ) : ((z : ℚ) + (k : ℚ)).den = 1 := by
  rw [show ((z : ℚ) + (k : ℚ)) = ((z + (k : ℤ) : ℤ) : ℚ) by push_cast; ring]
  exact Rat.den_intCast _

/-- C6 amended: the `RenewalNotAfterIssue` error is produced, attached to
`renewalYear`, whenever `renewalYear ≤ issueYear` *and every per-field check
passes*; per-field violations are collected and reported together in one
pass, but the cross-field refinement is skipped whenever any per-field check
fails (zod's `.refine` runs only on a cleanly parsed base object). -/
theorem claim6_amended (cy : ℤ) (cv iy ry : ℚ) (r : RawInput)
    (h1 : fieldIssues cy ⟨some cv, some iy, some ry⟩ = [])
    (h2 : ry ≤ iy) (h3 : fieldIssues cy r ≠ []) :
    validate cy ⟨some cv, some iy, some ry⟩ =
      .error [(Field.renewalYear, msgRenewalAfter)]
    ∧ validate cy r = .error (fieldIssues cy r) := by
  constructor
  · unfold validate
    rw [if_pos h1]
    show (if ry > iy then (Except.ok (⟨cv, iy, ry⟩ : FormValues)) else
      .error [(Field.renewalYear, msgRenewalAfter)]) = _
    rw [if_neg (not_lt.mpr h2)]
  · unfold validate
    rw [if_neg h3]

/-- C6 witness: the amended statement evaluated at `currentYear = 2025`,
clean fields `(100, 2022, 2021)` with `renewalYear ≤ issueYear`, and the
all-missing raw input as the input with per-field issues. -/
theorem claim6_witness :
    fieldIssues 2025 ⟨some 100, some 2022, some 2021⟩ = []
    ∧ (2021 : ℚ) ≤ 2022
    ∧ fieldIssues 2025 ⟨none, none, none⟩ ≠ []
    ∧ (validate 2025 ⟨some 100, some 2022, some 2021⟩ =
          .error [(Field.renewalYear, msgRenewalAfter)]
        ∧ validate 2025 ⟨none, none, none⟩ =
          .error (fieldIssues 2025 ⟨none, none, none⟩)) :=
  ⟨by decide, by norm_num, by decide,
    claim6_amended 2025 100 2022 2021 ⟨none, none, none⟩ (by decide) (by norm_num)
      (by decide)⟩

/-- C7 amended: the upper bound used to validate `issueYear` is the calendar
year captured once at module initialisation (`new Date().getFullYear()` at
module scope); every validation call uses that same captured year and never
re-reads the clock, so the outcome is independent of the call instant and
the acceptance bound is exactly the load-time year. -/
theorem claim7_amended (clock : ℕ → ℤ) (t0 t t' : ℕ) (r : RawInput) (iy : ℤ)
    (h : 1900 ≤ iy) :
    validateCode clock t0 t r = validateCode clock t0 t' r
    ∧ ((∃ v, validateCode clock t0 t ⟨some 1, some (iy : ℚ), some ((iy : ℚ) + 1)⟩ =
          .ok v)
        ↔ iy ≤ moduleLoadYear clock t0) := by
  refine ⟨rfl, ?_⟩
  have hden : ((iy : ℚ)).den = 1 := Rat.den_intCast iy
  have hden1 : ((iy : ℚ) + 1).den = 1 := den_intCast_add iy 1
  have hmin : (1900 : ℚ) ≤ (iy : ℚ) := by exact_mod_cast h
  have hmin1 : (1900 : ℚ) ≤ (iy : ℚ) + 1 := by linarith
  by_cases hc : iy ≤ moduleLoadYear clock t0
  · have hcq : (iy : ℚ) ≤ ((moduleLoadYear clock t0 : ℤ) : ℚ) := by exact_mod_cast hc
    have hfi : fieldIssues (moduleLoadYear clock t0)
        ⟨some 1, some (iy : ℚ), some ((iy : ℚ) + 1)⟩ = [] := by
      simp only [fieldIssues, contractValueIssues, issueYearIssues, renewalYearIssues,
        List.append_nil, List.nil_append]
      rw [if_pos (by norm_num : (0 : ℚ) < 1), if_pos hden, if_pos hmin, if_pos hcq,
        if_pos hden1, if_pos hmin1]
      rfl
    refine iff_of_true ⟨⟨1, iy, (iy : ℚ) + 1⟩, ?_⟩ hc
    unfold validateCode validate
    rw [hfi, if_pos rfl]
    show (if (iy : ℚ) + 1 > (iy : ℚ) then
        (Except.ok (⟨1, iy, (iy : ℚ) + 1⟩ : FormValues)) else .error _) = _
    rw [if_pos (lt_add_one _)]
  · have hcq : ¬(iy : ℚ) ≤ ((moduleLoadYear clock t0 : ℤ) : ℚ) := by exact_mod_cast hc
    have hfi : fieldIssues (moduleLoadYear clock t0)
        ⟨some 1, some (iy : ℚ), some ((iy : ℚ) + 1)⟩ = [(Field.issueYear, msgYearMax)] := by
      simp only [fieldIssues, contractValueIssues, issueYearIssues, renewalYearIssues,
        List.append_nil, List.nil_append]
      rw [if_pos (by norm_num : (0 : ℚ) < 1), if_pos hden, if_pos hmin, if_neg hcq,
        if_pos hden1, if_pos hmin1]
      rfl
    refine iff_of_false ?_ hc
    rintro ⟨v, hv⟩
    unfold validateCode validate at hv
    rw [hfi, if_neg (by simp)] at hv
    exact Except.noConfusion hv

/-- C7 witness: the amended statement evaluated with the constant-2025
clock, load instant 0, call instants 1 and 2, the all-missing raw input, and
`issueYear = 2024`. -/
theorem claim7_witness :
    (1900 : ℤ) ≤ 2024
    ∧ (validateCode (fun _ => 2025) 0 1 ⟨none, none, none⟩ =
          validateCode (fun _ => 2025) 0 2 ⟨none, none, none⟩
        ∧ ((∃ v, validateCode (fun _ => 2025) 0 1
              ⟨some 1, some ((2024 : ℤ) : ℚ), some (((2024 : ℤ) : ℚ) + 1)⟩ = .ok v)
            ↔ (2024 : ℤ) ≤ moduleLoadYear (fun _ => 2025) 0)) :=
  ⟨by norm_num,
    claim7_amended (fun _ => 2025) 0 1 2 ⟨none, none, none⟩ 2024 (by norm_num)⟩

/-- C8: with the other fields valid, validation accepts `issueYear = 1900`
and `issueYear = currentYear`, and rejects `issueYear = 1899` with the
too-early `YearOutOfRange` message and `issueYear = currentYear + 1` with
the in-the-future `YearOutOfRange` message. -/
theorem claim8_boundaries (cy : ℤ) (h : 1900 ≤ cy) :
    validate cy ⟨some 1000, some 1900, some ((cy : ℚ) + 1)⟩ =
      .ok ⟨1000, 1900, (cy : ℚ) + 1⟩
    ∧ validate cy ⟨some 1000, some (cy : ℚ), some ((cy : ℚ) + 1)⟩ =
      .ok ⟨1000, (cy : ℚ), (cy : ℚ) + 1⟩
    ∧ validate cy ⟨some 1000, some 1899, some ((cy : ℚ) + 1)⟩ =
      .error [(Field.issueYear, msgYearMin)]
    ∧ validate cy ⟨some 1000, some ((cy : ℚ) + 1), some ((cy : ℚ) + 2)⟩ =
      .error [(Field.issueYear, msgYearMax)] := by
  have hq : (1900 : ℚ) ≤ (cy : ℚ) := by exact_mod_cast h
  have d0 : ((cy : ℚ)).den = 1 := Rat.den_intCast cy
  have d1 : ((cy : ℚ) + 1).den = 1 := den_intCast_add cy 1
  have d2 : ((cy : ℚ) + 2).den = 1 := den_intCast_add cy 2
  refine ⟨?_, ?_, ?_, ?_⟩
  · have hfi : fieldIssues cy ⟨some 1000, some 1900, some ((cy : ℚ) + 1)⟩ = [] := by
      simp only [fieldIssues, contractValueIssues, issueYearIssues, renewalYearIssues,
        List.append_nil, List.nil_append]
      rw [if_pos (by norm_num : (0 : ℚ) < 1000), if_pos (by decide : ((1900 : ℚ)).den = 1),
        if_pos (by norm_num : (1900 : ℚ) ≤ 1900), if_pos hq, if_pos d1,
        if_pos (by linarith : (1900 : ℚ) ≤ (cy : ℚ) + 1)]
      rfl
    unfold validate
    rw [hfi, if_pos rfl]
    show (if (cy : ℚ) + 1 > (1900 : ℚ) then
        (Except.ok (⟨1000, 1900, (cy : ℚ) + 1⟩ : FormValues)) else .error _) = _
    rw [if_pos (by linarith : (1900 : ℚ) < (cy : ℚ) + 1)]
  · have hfi : fieldIssues cy ⟨some 1000, some (cy : ℚ), some ((cy : ℚ) + 1)⟩ = [] := by
      simp only [fieldIssues, contractValueIssues, issueYearIssues, renewalYearIssues,
        List.append_nil, List.nil_append]
      rw [if_pos (by norm_num : (0 : ℚ) < 1000), if_pos d0, if_pos hq,
        if_pos (le_refl ((cy : ℤ) : ℚ)), if_pos d1,
        if_pos (by linarith : (1900 : ℚ) ≤ (cy : ℚ) + 1)]
      rfl
    unfold validate
    rw [hfi, if_pos rfl]
    show (if (cy : ℚ) + 1 > (cy : ℚ) then
        (Except.ok (⟨1000, (cy : ℚ), (cy : ℚ) + 1⟩ : FormValues)) else .error _) = _
    rw [if_pos (lt_add_one _)]
  · have hfi : fieldIssues cy ⟨some 1000, some 1899, some ((cy : ℚ) + 1)⟩ =
        [(Field.issueYear, msgYearMin)] := by
      simp only [fieldIssues, contractValueIssues, issueYearIssues, renewalYearIssues,
        List.append_nil, List.nil_append]
      rw [if_pos (by norm_num : (0 : ℚ) < 1000), if_pos (by decide : ((1899 : ℚ)).den = 1),
        if_neg (by norm_num : ¬(1900 : ℚ) ≤ 1899),
        if_pos (by linarith : (1899 : ℚ) ≤ (cy : ℚ)), if_pos d1,
        if_pos (by linarith : (1900 : ℚ) ≤ (cy : ℚ) + 1)]
      rfl
    unfold validate
    rw [hfi, if_neg (by simp)]
  · have hfi : fieldIssues cy ⟨some 1000, some ((cy : ℚ) + 1), some ((cy : ℚ) + 2)⟩ =
        [(Field.issueYear, msgYearMax)] := by
      simp only [fieldIssues, contractValueIssues, issueYearIssues, renewalYearIssues,
        List.append_nil, List.nil_append]
      rw [if_pos (by norm_num : (0 : ℚ) < 1000), if_pos d1,
        if_pos (by linarith : (1900 : ℚ) ≤ (cy : ℚ) + 1),
        if_neg (by simp : ¬(cy : ℚ) + 1 ≤ (cy : ℚ)), if_pos d2,
        if_pos (by linarith : (1900 : ℚ) ≤ (cy : ℚ) + 2)]
      rfl
    unfold validate
    rw [hfi, if_neg (by simp)]

/-- C8 witness: the boundary statement evaluated at `currentYear = 2025`. -/
theorem claim8_witness :
    (1900 : ℤ) ≤ 2025
    ∧ (validate 2025 ⟨some 1000, some 1900, some (((2025 : ℤ) : ℚ) + 1)⟩ =
          .ok ⟨1000, 1900, ((2025 : ℤ) : ℚ) + 1⟩
        ∧ validate 2025 ⟨some 1000, some ((2025 : ℤ) : ℚ), some (((2025 : ℤ) : ℚ) + 1)⟩ =
          .ok ⟨1000, ((2025 : ℤ) : ℚ), ((2025 : ℤ) : ℚ) + 1⟩
        ∧ validate 2025 ⟨some 1000, some 1899, some (((2025 : ℤ) : ℚ) + 1)⟩ =
          .error [(Field.issueYear, msgYearMin)]
        ∧ validate 2025 ⟨some 1000, some (((2025 : ℤ) : ℚ) + 1), some (((2025 : ℤ) : ℚ) + 2)⟩ =
          .error [(Field.issueYear, msgYearMax)]) :=
  ⟨by norm_num, claim8_boundaries 2025 (by norm_num)⟩

/-- C3: for every finite non-negative number, the Wordifier output is the
integer part's cardinal words, then the literal connective "point", then
exactly three fractional digit-words (never elided), and every
space-separated token of the final string starts with an uppercase
letter.  The token list of the output is exactly the capitalised cardinal
tokens, the token "Point", and the three capitalised digit-words. -/
theorem claim3_wordifier_structure (q : ℚ) (h : 0 ≤ q) :
    splitSpace (resultInWords (some q)).data =
      (splitSpace (toWordsL (fixedIntPart q))).map capWord
        ++ [capWord pointW, capWord (toWordsL (fixedScaled q / 100 % 10)),
            capWord (toWordsL (fixedScaled q / 10 % 10)),
            capWord (toWordsL (fixedScaled q % 10))]
    ∧ ∀ t ∈ splitSpace (resultInWords (some q)).data,
        ∃ c cs, t = c :: cs ∧ c.isUpper = true := by
  have hneg : decide (q < 0) = false := decide_eq_false (not_lt.mpr h)
  have hrw : resultInWords (some q) = wordsOfFixed false (fixedScaled q) := by
    simp only [resultInWords, hneg]
  unfold fixedIntPart
  set m := fixedScaled q with hm
  have hd2 : m / 100 % 10 < 10 := Nat.mod_lt _ (by norm_num)
  have hd1 : m / 10 % 10 < 10 := Nat.mod_lt _ (by norm_num)
  have hd0 : m % 10 < 10 := Nat.mod_lt _ (by norm_num)
  have hsplit : splitSpace (toWordsL (m / 1000) ++ ' ' :: pointW ++ ' ' ::
      (toWordsL (m / 100 % 10) ++ ' ' :: toWordsL (m / 10 % 10) ++ ' ' ::
        toWordsL (m % 10)))
      = splitSpace (toWordsL (m / 1000)) ++
          [pointW, toWordsL (m / 100 % 10), toWordsL (m / 10 % 10), toWordsL (m % 10)] := by
    rw [splitSpace_append, splitSpace_append, splitSpace_append, splitSpace_append,
      splitSpace_no_space pointW (by decide),
      splitSpace_no_space _ (digit_noSpace _ hd2),
      splitSpace_no_space _ (digit_noSpace _ hd1),
      splitSpace_no_space _ (digit_noSpace _ hd0)]
    simp
  have hall : (splitSpace (toWordsL (m / 1000) ++ ' ' :: pointW ++ ' ' ::
      (toWordsL (m / 100 % 10) ++ ' ' :: toWordsL (m / 10 % 10) ++ ' ' ::
        toWordsL (m % 10)))).all tokOK = true := by
    rw [hsplit, List.all_append, toWordsL_all_tokOK]
    simp [digit_tokOK _ hd2, digit_tokOK _ hd1, digit_tokOK _ hd0,
      (by decide : tokOK pointW = true)]
  constructor
  · rw [hrw, wordsOfFixed_false_data, capAll_tokens _ hall, hsplit]
    simp [List.map_append]
  · intro t ht
    rw [hrw, wordsOfFixed_false_data, capAll_tokens _ hall] at ht
    obtain ⟨u, hu, rfl⟩ := List.mem_map.mp ht
    obtain ⟨_, c, cs, hcc, hup⟩ := capWord_ok u (List.all_eq_true.mp hall u hu)
    exact ⟨c, cs, hcc, hup⟩

/-- C3 witness: the structure statement evaluated at the result `0`. -/
theorem claim3_witness :
    (0 : ℚ) ≤ 0 ∧
      (splitSpace (resultInWords (some (0 : ℚ))).data =
        (splitSpace (toWordsL (fixedIntPart (0 : ℚ)))).map capWord
          ++ [capWord pointW, capWord (toWordsL (fixedScaled (0 : ℚ) / 100 % 10)),
              capWord (toWordsL (fixedScaled (0 : ℚ) / 10 % 10)),
              capWord (toWordsL (fixedScaled (0 : ℚ) % 10))]
      ∧ ∀ t ∈ splitSpace (resultInWords (some (0 : ℚ))).data,
          ∃ c cs, t = c :: cs ∧ c.isUpper = true) :=
  ⟨le_refl 0, claim3_wordifier_structure 0 (le_refl 0)⟩

/-- C4 amended: on a negative input the Wordifier does not fail (it has no
`NegativeValue` error path): it returns the capitalised rendering, and
whenever the three-decimal rendering has a nonzero integer part the sign is
rendered as a leading "Minus" token.  (For `-1 < q < 0` the integer-part
string is `"-0"`, which `Number` parses to negative zero, so even the sign
disappears.) -/
theorem claim4_amended (q : ℚ) (hneg : q < 0) (hip : 1 ≤ fixedIntPart q) :
    ∃ rest, (resultInWords (some q)).data = "Minus".data ++ ' ' :: rest := by
  have hd : decide (q < 0) = true := decide_eq_true hneg
  have hip2 : 1 ≤ fixedScaled q / 1000 := hip
  have hne : ((splitSpace (toWordsL (fixedScaled q / 1000) ++ ' ' :: pointW ++ ' ' ::
      (toWordsL (fixedScaled q / 100 % 10) ++ ' ' :: toWordsL (fixedScaled q / 10 % 10) ++
        ' ' :: toWordsL (fixedScaled q % 10)))).map capWord) ≠ [] := by
    intro hc
    exact splitSpace_ne_nil _ (List.map_eq_nil_iff.mp hc)
  refine ⟨joinSpace ((splitSpace (toWordsL (fixedScaled q / 1000) ++ ' ' :: pointW ++ ' ' ::
      (toWordsL (fixedScaled q / 100 % 10) ++ ' ' :: toWordsL (fixedScaled q / 10 % 10) ++
        ' ' :: toWordsL (fixedScaled q % 10)))).map capWord), ?_⟩
  rw [show resultInWords (some q) = wordsOfFixed true (fixedScaled q) from by
      simp only [resultInWords, hd],
    wordsOfFixed_true_data _ hip2]
  unfold capAll
  rw [splitSpace_append, splitSpace_no_space minusW (by decide)]
  simp only [List.singleton_append, List.map_cons]
  rw [joinSpace_cons _ _ hne]
  rfl

/-- C4 amended witness: the leading-"Minus" rendering evaluated at `-5.5`. -/
theorem claim4_amended_witness :
    (-5.5 : ℚ) < 0 ∧ 1 ≤ fixedIntPart (-5.5 : ℚ)
    ∧ ∃ rest, (resultInWords (some (-5.5 : ℚ))).data = "Minus".data ++ ' ' :: rest := by
  have habs : |(-5.5 : ℚ)| = 5.5 := by rw [abs_of_neg (by norm_num)]; norm_num
  have hm : fixedScaled (-5.5 : ℚ) = 5500 :=
    fixedScaled_eq _ _ (by rw [habs]; norm_num) (by rw [habs]; norm_num)
  have hip : 1 ≤ fixedIntPart (-5.5 : ℚ) := by
    unfold fixedIntPart
    rw [hm]
    decide
  exact ⟨by norm_num, hip, claim4_amended (-5.5 : ℚ) (by norm_num) hip⟩

end ContractCatalyst
